import Mathlib

/-!
Verification development for the k8s port-forward supervisor
(`src/k8s_port_forward.rs`).

The Rust module is embedded shallowly:

* `is_port_available` performs IO (binding a TCP listener), so every
  definition that calls it is parameterised by an availability oracle
  `avail : Nat → Bool`; ports are natural numbers with the `u16` range
  `0 ..= 65535` made explicit where the source uses `u16` arithmetic
  (`saturating_add`, `checked_sub`).
* `TcpListener::bind("127.0.0.1:0")` followed by `local_addr` (the
  OS-assigned ephemeral port path) is parameterised as
  `osPort : Option Nat`.
* The process runner `run_port_forward` is modelled as a function of
  the spawn outcome (spawn failure, or a child process with its two
  line streams and exit status), returning the trace of events it
  performs together with its `Result`.
* The supervisor loop inside `start_port_forward` is modelled as a
  step function on an explicit loop state, driven by the state of the
  tokio mpsc channel at each shutdown check.
-/

namespace K8sPortForward

/-- The `u16` maximum; ports in the source are `u16`. -/
def u16Max : Nat := 65535

/-- Rust `u16::saturating_add` on the embedded port type. -/
def satAdd (a b : Nat) : Nat := min (a + b) u16Max

/-- The offsets `1..=10` iterated by the nearby-port search in
`find_available_port`. -/
def nearbyOffsets : List Nat := [1, 2, 3, 4, 5, 6, 7, 8, 9, 10]

/-- The nearby-port search of `find_available_port`
(`src/k8s_port_forward.rs:90-103`): for each offset, first
`preferred_port.saturating_add(offset)` guarded by
`port_up != preferred_port`, then `preferred_port.checked_sub(offset)`
(present only when `offset ≤ preferred`), each probed with
`is_port_available` and returned on first success. -/
def tryNearby (avail : Nat → Bool) (preferred : Nat) : List Nat → Option Nat
  | [] => none
  | off :: rest =>
    let portUp := satAdd preferred off
    if (portUp != preferred) && avail portUp then some portUp
    else if (off ≤ preferred : Bool) && avail (preferred - off) then
      some (preferred - off)
    else tryNearby avail preferred rest

/-- The secondary scan of `find_available_port`
(`src/k8s_port_forward.rs:107-111`): `for port in 19200..19300`,
returning the first port the oracle reports free.  `count` is the
number of ports remaining to examine starting at `start`. -/
def scanFirst (avail : Nat → Bool) : Nat → Nat → Option Nat
  | _, 0 => none
  | start, count + 1 =>
    if avail start then some start else scanFirst avail (start + 1) count

/-- Lower bound of the secondary scan range (`19200..19300`). -/
def scanStart : Nat := 19200

/-- Number of ports in the secondary scan range (`19200..19300`). -/
def scanLen : Nat := 100

/-- The function `find_available_port` (`src/k8s_port_forward.rs:83-122`),
parameterised by the availability oracle and by the OS-assigned
ephemeral port (`none` when binding port 0 or reading `local_addr`
fails). -/
def find_available_port (avail : Nat → Bool) (osPort : Option Nat)
    (preferred : Nat) : Nat :=
  if avail preferred then preferred
  else
    match tryNearby avail preferred nearbyOffsets with
    | some p => p
    | none =>
      match scanFirst avail scanStart scanLen with
      | some p => p
      | none =>
        match osPort with
        | some p => p
        | none => preferred

/-- Modelled from the spec: the nearby search as §4.1 step 2 words it —
"for offset = 1..10 inclusive: preferred+offset (skip if it overflows
the 16-bit range) then preferred−offset (skip if it underflows below
0), each checked and returned on first success".  Used only to compare
against `tryNearby`, the definition taken from the source. -/
def tryNearbySpec (avail : Nat → Bool) (preferred : Nat) :
    List Nat → Option Nat
  | [] => none
  | off :: rest =>
    if (preferred + off ≤ u16Max : Bool) && avail (preferred + off) then
      some (preferred + off)
    else if (off ≤ preferred : Bool) && avail (preferred - off) then
      some (preferred - off)
    else tryNearbySpec avail preferred rest

/-! ### Line severity classification -/

/-- Log severities used by the module (`tracing::info!`,
`tracing::warn!`, `tracing::error!`). -/
inductive Severity where
  | info
  | warn
  | error
deriving DecidableEq, Repr

/-- Whether `needle` is a prefix of `hay` (lists of characters). -/
def leadsWith : List Char → List Char → Bool
  | [], _ => true
  | _ :: _, [] => false
  | a :: as, b :: bs => (a == b) && leadsWith as bs

/-- Rust `str::contains(needle)`: `needle` occurs as a contiguous
substring of `hay`. -/
def strHasSub (hay needle : List Char) : Bool :=
  match hay with
  | [] => needle.isEmpty
  | _ :: t => leadsWith needle hay || strHasSub t needle

/-- Severity assigned to one stderr line by the stderr-drain task
(`src/k8s_port_forward.rs:197-203`): error severity iff the line
contains `"error"` or `"Error"`, informational otherwise. -/
def stderrSeverity (line : List Char) : Severity :=
  if strHasSub line ("error".toList) || strHasSub line ("Error".toList) then
    Severity.error
  else Severity.info

/-- Severity assigned to one stdout line by the stdout-drain task
(`src/k8s_port_forward.rs:185-191`): always informational. -/
def stdoutSeverity (_line : List Char) : Severity := Severity.info

/-- Modelled from the spec: "contains the substring `"error"` in any
case variant of exactly that substring" — the line, lowercased
character-wise, contains `"error"`.  Used only to compare against
`stderrSeverity`, the classifier taken from the source. -/
def containsErrorAnyCase (line : List Char) : Bool :=
  strHasSub (line.map Char.toLower) ("error".toList)

/-! ### Process runner (`run_port_forward`) -/

/-- Exit status of the child process: `some c` for exit code `c`,
`none` for abnormal termination (killed by a signal).
`ExitStatus::success()` holds exactly for exit code 0. -/
def statusSuccess (status : Option Nat) : Bool := status == some 0

/-- One attempt's child process, as observed by `run_port_forward`:
its two line streams and its exit status. -/
structure ChildProc where
  stdoutLines : List (List Char)
  stderrLines : List (List Char)
  exitStatus : Option Nat
deriving DecidableEq, Repr

/-- Which stream a log line came from. -/
inductive StreamSrc where
  | stdout
  | stderr
deriving DecidableEq, Repr

/-- Events performed by one `run_port_forward` invocation, in order. -/
inductive RunEvent where
  /-- A stream-drain task read one line and emitted one log event. -/
  | logged (src : StreamSrc) (sev : Severity) (line : List Char)
  /-- `child.wait().await` completed with the given status. -/
  | waited (status : Option Nat)
deriving DecidableEq, Repr

/-- Failures surfaced by `run_port_forward`: the spawn `?` at
`src/k8s_port_forward.rs:179`, or the `anyhow::bail!` carrying the
exit status at line 214. -/
inductive RunFailure where
  | spawnFailed
  | exitFailure (status : Option Nat)
deriving DecidableEq, Repr

/-- Log events emitted by the stdout-drain task
(`src/k8s_port_forward.rs:185-191`), one per line, all informational. -/
def drainStdout (lines : List (List Char)) : List RunEvent :=
  lines.map fun l => RunEvent.logged StreamSrc.stdout (stdoutSeverity l) l

/-- Log events emitted by the stderr-drain task
(`src/k8s_port_forward.rs:193-204`), one per line, severity from
`stderrSeverity`. -/
def drainStderr (lines : List (List Char)) : List RunEvent :=
  lines.map fun l => RunEvent.logged StreamSrc.stderr (stderrSeverity l) l

/-- The function `run_port_forward` (`src/k8s_port_forward.rs:169-218`),
parameterised by the spawn outcome: `none` when `spawn()` fails (the
`?` returns immediately, before any stream is touched), `some child`
when it yields a child process.  Returns the trace of events together
with the `anyhow::Result<()>`. -/
def run_port_forward (spawnResult : Option ChildProc) :
    List RunEvent × Except RunFailure Unit :=
  match spawnResult with
  | none => ([], Except.error RunFailure.spawnFailed)
  | some child =>
    let events := drainStdout child.stdoutLines ++ drainStderr child.stderrLines
      ++ [RunEvent.waited child.exitStatus]
    if statusSuccess child.exitStatus then (events, Except.ok ())
    else (events, Except.error (RunFailure.exitFailure child.exitStatus))

/-! ### Supervisor loop (`start_port_forward`) -/

/-- Seed of `retry_delay`, in seconds (`Duration::from_secs(1)`,
`src/k8s_port_forward.rs:128`). -/
def initialRetryDelay : Nat := 1

/-- Ceiling `max_retry_delay`, in seconds (`Duration::from_secs(30)`,
`src/k8s_port_forward.rs:129`). -/
def maxRetryDelay : Nat := 30

/-- Result of `tokio::sync::mpsc::Receiver::try_recv` on a channel
holding `msgs` queued messages whose senders are all dropped iff
`closed`: a queued message yields `Ok`, otherwise a closed channel
yields `Err(Disconnected)` and an open one `Err(Empty)`. -/
inductive TryRecvResult where
  | ok
  | empty
  | disconnected
deriving DecidableEq, Repr

/-- Rust `try_recv` on the shutdown channel's receiver. -/
def tryRecv (msgs : Nat) (closed : Bool) : TryRecvResult :=
  if 0 < msgs then TryRecvResult.ok
  else if closed then TryRecvResult.disconnected
  else TryRecvResult.empty

/-- Rust `Result::is_ok()` applied to the `try_recv` outcome
(`src/k8s_port_forward.rs:150`). -/
def tryRecvIsOk : TryRecvResult → Bool
  | TryRecvResult.ok => true
  | _ => false

/-- State of the supervisor loop spawned by `start_port_forward`:
the current `retry_delay` (seconds), how many subprocess attempts have
been spawned, and whether the loop has executed `break` (the Stopped
state). -/
structure LoopState where
  retryDelay : Nat
  attempts : Nat
  stopped : Bool
deriving DecidableEq, Repr

/-- Loop state on entry (`src/k8s_port_forward.rs:128-131`). -/
def initialLoopState : LoopState :=
  { retryDelay := initialRetryDelay, attempts := 0, stopped := false }

/-- One iteration of the supervisor loop body
(`src/k8s_port_forward.rs:131-160`): if already stopped, nothing runs;
otherwise spawn and await one `run_port_forward` attempt, then check
`rx.try_recv().is_ok()` — on `Ok` break to Stopped, otherwise sleep
`retry_delay` and double it capped at `max_retry_delay`.  `msgs` and
`closed` describe the shutdown channel at this iteration's check. -/
def loopIter (msgs : Nat) (closed : Bool) (s : LoopState) : LoopState :=
  if s.stopped then s
  else if tryRecvIsOk (tryRecv msgs closed) then
    { s with attempts := s.attempts + 1, stopped := true }
  else
    { s with attempts := s.attempts + 1,
             retryDelay := min (s.retryDelay * 2) maxRetryDelay }

/-- The supervisor loop after `n` iterations, driven by the channel
state at each iteration's shutdown check: `msgsAt i` messages queued
and `closedAt i` sender-dropped status at iteration `i`'s check. -/
def runLoop (msgsAt : Nat → Nat) (closedAt : Nat → Bool) : Nat → LoopState
  | 0 => initialLoopState
  | n + 1 => loopIter (msgsAt n) (closedAt n) (runLoop msgsAt closedAt n)

/-- The shutdown channel as `start_port_forward` leaves it
(`src/k8s_port_forward.rs:125,163-164`): the only sender `tx` is
dropped before the function returns and is never exposed to the
caller, so no message is ever queued. -/
def startChannelMsgs : Nat → Nat := fun _ => 0

/-- In `start_port_forward` the sender is dropped immediately, so at
every check the channel is closed. -/
def startChannelClosed : Nat → Bool := fun _ => true

/-- Channel contents when a single shutdown message is queued during
attempt `k + 1` (0-based iteration `k`) and no earlier: present from
iteration `k`'s check onward (capacity-one, single-use channel). -/
def sentAt (k : Nat) : Nat → Nat := fun i => if k ≤ i then 1 else 0

/-- The generic backoff recurrence: `retryDelaySeq d0 dmax n` is the
value of `retry_delay` slept after `n + 1` completed attempts, with
seed `d0` and ceiling `dmax` (`retry_delay = min(retry_delay * 2,
max_retry_delay)` after each sleep, `src/k8s_port_forward.rs:159`). -/
def retryDelaySeq (d0 dmax : Nat) : Nat → Nat
  | 0 => d0
  | n + 1 => min (retryDelaySeq d0 dmax n * 2) dmax

/-! ### Helper lemmas -/

/-- A stopped loop state is a fixed point of the loop body. -/
theorem loopIter_stopped (msgs : Nat) (closed : Bool) (s : LoopState)
    (h : s.stopped = true) : loopIter msgs closed s = s := by
  simp [loopIter, h]

/-- With no message queued, the shutdown check never fires, whatever
the sender-dropped status is. -/
theorem tryRecv_no_msg (closed : Bool) : tryRecvIsOk (tryRecv 0 closed) = false := by
  cases closed <;> rfl

/-- Before the shutdown message arrives, the loop keeps spawning: after
`n ≤ k` iterations with the message queued from iteration `k` on, the
loop is running and has made `n` attempts. -/
theorem runLoop_sentAt_pre (k : Nat) (closedAt : Nat → Bool) :
    ∀ n, n ≤ k → (runLoop (sentAt k) closedAt n).stopped = false ∧
      (runLoop (sentAt k) closedAt n).attempts = n := by
  intro n
  induction n with
  | zero => intro _; exact ⟨rfl, rfl⟩
  | succ n ih =>
    intro hn
    obtain ⟨h1, h2⟩ := ih (Nat.le_of_succ_le hn)
    have hmsg : sentAt k n = 0 := by
      unfold sentAt
      have : ¬ k ≤ n := by omega
      simp [this]
    simp [runLoop, loopIter, h1, h2, hmsg, tryRecv_no_msg]

/-- Once stopped, the loop state no longer changes. -/
theorem runLoop_stable (msgsAt : Nat → Nat) (closedAt : Nat → Bool) (n : Nat)
    (h : (runLoop msgsAt closedAt n).stopped = true) :
    ∀ m, n ≤ m → runLoop msgsAt closedAt m = runLoop msgsAt closedAt n := by
  intro m
  induction m with
  | zero => intro hm; cases Nat.le_zero.mp hm; rfl
  | succ m ih =>
    intro hm
    rcases Nat.lt_or_ge n (m + 1) with hlt | hge
    · have heq := ih (by omega)
      calc runLoop msgsAt closedAt (m + 1)
          = loopIter (msgsAt m) (closedAt m) (runLoop msgsAt closedAt m) := rfl
        _ = runLoop msgsAt closedAt m := loopIter_stopped _ _ _ (heq ▸ h)
        _ = runLoop msgsAt closedAt n := heq
    · have : n = m + 1 := by omega
      rw [this]

/-! ### Claims -/

/-- C2: in every execution started through `start_port_forward`, the
shutdown sender is created and dropped inside the function and never
exposed, so no message is ever queued; consequently the supervisor
loop never reaches the Stopped state and spawns a fresh attempt on
every iteration, forever. -/
theorem c2_loop_never_stops (n : Nat) :
    (runLoop startChannelMsgs startChannelClosed n).stopped = false ∧
    (runLoop startChannelMsgs startChannelClosed n).attempts = n := by
  induction n with
  | zero => exact ⟨rfl, rfl⟩
  | succ n ih =>
    obtain ⟨h1, h2⟩ := ih
    simp [runLoop, loopIter, h1, h2, startChannelMsgs, startChannelClosed,
      tryRecv_no_msg]

/-- C1: the claim that closing/dropping the shutdown sender makes the
loop reach Stopped after its current attempt is refuted at the one
channel state `start_port_forward` produces (sender dropped, nothing
queued): `try_recv` yields `Disconnected`, `is_ok()` is `false`, and
after two iterations the loop has spawned a second attempt and is
still running.  This contradicts the source's own comment ("Drop the
sender so the task can detect shutdown"). -/
theorem c1_sender_closed_loop_continues :
    tryRecv 0 true = TryRecvResult.disconnected ∧
    tryRecvIsOk (tryRecv 0 true) = false ∧
    (runLoop startChannelMsgs startChannelClosed 2).attempts = 2 ∧
    (runLoop startChannelMsgs startChannelClosed 2).stopped = false := by
  decide

/-- C7: for a completed attempt (spawn succeeded), `run_port_forward`
returns a `Failure` carrying the exit status exactly when the status
is not a success, and returns `Ok` exactly when the subprocess exited
successfully. -/
theorem c7_exit_status_failure (child : ChildProc) :
    ((run_port_forward (some child)).2 =
        Except.error (RunFailure.exitFailure child.exitStatus) ↔
      statusSuccess child.exitStatus = false) ∧
    ((run_port_forward (some child)).2 = Except.ok () ↔
      statusSuccess child.exitStatus = true) := by
  cases h : statusSuccess child.exitStatus <;>
    simp [run_port_forward, h]

/-- C8: when spawning fails, `run_port_forward` returns a `Failure`
immediately and its event trace is empty — no stream is read, no
drain task runs, no wait occurs. -/
theorem c8_spawn_failure_no_streams :
    (run_port_forward none).2 = Except.error RunFailure.spawnFailed ∧
    (run_port_forward none).1 = [] :=
  ⟨rfl, rfl⟩

/-- C3 counterexample: the line `"ERROR"` contains the substring
`"error"` in a case variant (`containsErrorAnyCase` holds), yet the
stderr drain logs it at informational severity, because the source
only checks the two variants `"error"` and `"Error"`. -/
theorem c3_counterexample_upper_case :
    containsErrorAnyCase ("ERROR".toList) = true ∧
    (run_port_forward
        (some ⟨[], [("ERROR".toList)], some 0⟩)).1 =
      [RunEvent.logged StreamSrc.stderr Severity.info ("ERROR".toList),
       RunEvent.waited (some 0)] := by
  decide

/-- C3 (amended): every stdout line in a completed attempt's trace is
logged informational, and a stderr line is logged at error severity
exactly when it contains `"error"` or `"Error"` (those two case
variants only); otherwise it is logged informational. -/
theorem c3_line_severity (child : ChildProc) (e : RunEvent)
    (he : e ∈ (run_port_forward (some child)).1) :
    (∀ sev l, e = RunEvent.logged StreamSrc.stdout sev l →
      sev = Severity.info) ∧
    (∀ sev l, e = RunEvent.logged StreamSrc.stderr sev l →
      ((strHasSub l ("error".toList) || strHasSub l ("Error".toList)) = true →
        sev = Severity.error) ∧
      ((strHasSub l ("error".toList) || strHasSub l ("Error".toList)) = false →
        sev = Severity.info)) := by
  have htrace : (run_port_forward (some child)).1 =
      drainStdout child.stdoutLines ++ drainStderr child.stderrLines
        ++ [RunEvent.waited child.exitStatus] := by
    unfold run_port_forward
    cases h : statusSuccess child.exitStatus <;> simp [h]
  rw [htrace] at he
  rcases List.mem_append.mp he with hin | hwait
  · rcases List.mem_append.mp hin with hout | herr
    · obtain ⟨l, _, rfl⟩ := List.mem_map.mp hout
      constructor
      · intro sev l heq
        cases heq
        rfl
      · intro sev l heq
        cases heq
    · obtain ⟨l, _, rfl⟩ := List.mem_map.mp herr
      constructor
      · intro sev l heq
        cases heq
      · intro sev l' heq
        cases heq
        constructor
        · intro hc
          unfold stderrSeverity
          rw [hc]
          rfl
        · intro hc
          unfold stderrSeverity
          rw [hc]
          rfl
  · simp at hwait
    subst hwait
    exact ⟨(fun _ _ h => by cases h), (fun _ _ h => by cases h)⟩

/-- Witness for the amended C3 at the spec's own scenario: in an
attempt whose stderr produced `"connection refused: error"`, that
line's log event is present in the trace and classified at error
severity. -/
theorem c3_line_severity_witness :
    RunEvent.logged StreamSrc.stderr Severity.error
        ("connection refused: error".toList) ∈
      (run_port_forward
        (some ⟨[], [("connection refused: error".toList)], some 0⟩)).1 ∧
    Severity.error = Severity.error :=
  ⟨by decide,
    (c3_line_severity
        ⟨[], [("connection refused: error".toList)], some 0⟩
        (RunEvent.logged StreamSrc.stderr Severity.error
          ("connection refused: error".toList))
        (by decide)).2
      Severity.error ("connection refused: error".toList) rfl
      |>.1 (by decide)⟩


/-- C10: once a shutdown message is queued during attempt `k + 1`
(present from iteration `k`'s check onward), the loop performs at most
`k + 1` attempts in total — the in-flight attempt completes, the check
observes the message, and the loop breaks; from iteration `k + 1` on
the state is Stopped with exactly `k + 1` attempts, so no second
subprocess is ever spawned after the signal is observed. -/
theorem c10_shutdown_stops_after_current_attempt (k : Nat)
    (closedAt : Nat → Bool) :
    (∀ n, (runLoop (sentAt k) closedAt n).attempts ≤ k + 1) ∧
    (∀ n, k + 1 ≤ n → (runLoop (sentAt k) closedAt n).stopped = true ∧
      (runLoop (sentAt k) closedAt n).attempts = k + 1) := by
  obtain ⟨h1, h2⟩ := runLoop_sentAt_pre k closedAt k (Nat.le_refl k)
  have hstep : runLoop (sentAt k) closedAt (k + 1) =
      { retryDelay := (runLoop (sentAt k) closedAt k).retryDelay,
        attempts := k + 1, stopped := true } := by
    have hmsg : sentAt k k = 1 := by simp [sentAt]
    show loopIter (sentAt k k) (closedAt k) (runLoop (sentAt k) closedAt k) = _
    rw [hmsg]
    simp [loopIter, h1, h2, tryRecv, tryRecvIsOk]
  have hstable : ∀ n, k + 1 ≤ n →
      runLoop (sentAt k) closedAt n = runLoop (sentAt k) closedAt (k + 1) :=
    runLoop_stable _ _ (k + 1) (by rw [hstep])
  refine ⟨?_, ?_⟩
  · intro n
    rcases Nat.le_total n k with hn | hn
    · have := (runLoop_sentAt_pre k closedAt n hn).2
      omega
    · rcases Nat.eq_or_lt_of_le hn with heq | hlt
      · subst heq
        omega
      · rw [hstable n hlt, hstep]
  · intro n hn
    rw [hstable n hn, hstep]
    exact ⟨rfl, rfl⟩

/-- Witness for C10 at `k = 1`, `n = 5`: with the message queued from
iteration 1's check, after five scheduled iterations the loop is
Stopped having made exactly two attempts. -/
theorem c10_shutdown_stops_witness :
    1 + 1 ≤ 5 ∧
    (runLoop (sentAt 1) (fun _ => false) 5).stopped = true ∧
    (runLoop (sentAt 1) (fun _ => false) 5).attempts = 1 + 1 :=
  ⟨by decide,
    (c10_shutdown_stops_after_current_attempt 1 (fun _ => false)).2 5
      (by decide)⟩

/-- C6: for seed `d0` and ceiling `dmax` with `d0 ≤ dmax`, the delay
slept after `n + 1` consecutive completed attempts is
`min (d0 * 2 ^ n) dmax` (i.e. attempt-count `m` sleeps
`min (d0 * 2 ^ (m - 1)) dmax`), the backoff sequence never exceeds
`dmax`, and in every reachable loop state (for any channel schedule)
the retry delay is at most `max_retry_delay` and, while the loop is
running, equals the backoff sequence at the iteration count with the
source's constants `d0 = 1`, `dmax = 30`. -/
theorem c6_backoff_delay (d0 dmax : Nat) (h : d0 ≤ dmax) :
    (∀ n, retryDelaySeq d0 dmax n = min (d0 * 2 ^ n) dmax) ∧
    (∀ n, retryDelaySeq d0 dmax n ≤ dmax) ∧
    (∀ msgsAt closedAt n,
      (runLoop msgsAt closedAt n).retryDelay ≤ maxRetryDelay) ∧
    (∀ msgsAt closedAt n, (runLoop msgsAt closedAt n).stopped = false →
      (runLoop msgsAt closedAt n).retryDelay =
        retryDelaySeq initialRetryDelay maxRetryDelay n) := by
  have hformula : ∀ n, retryDelaySeq d0 dmax n = min (d0 * 2 ^ n) dmax := by
    intro n
    induction n with
    | zero =>
      simp [retryDelaySeq, Nat.min_eq_left h]
    | succ n ih =>
      rw [retryDelaySeq, ih]
      rcases Nat.le_total (d0 * 2 ^ n) dmax with h1 | h1
      · rw [Nat.min_eq_left h1, pow_succ, ← Nat.mul_assoc]
      · have h2 : dmax ≤ d0 * 2 ^ (n + 1) := by
          refine le_trans h1 ?_
          exact Nat.mul_le_mul_left d0
            (Nat.pow_le_pow_right (by omega) (Nat.le_succ n))
        rw [Nat.min_eq_right h1, Nat.min_eq_right h2,
          Nat.min_eq_right (by omega : dmax ≤ dmax * 2)]
  refine ⟨hformula, fun n => by rw [hformula n]; exact Nat.min_le_right _ _,
    ?_, ?_⟩
  · intro msgsAt closedAt n
    induction n with
    | zero =>
      show initialLoopState.retryDelay ≤ maxRetryDelay
      decide
    | succ n ih =>
      show (loopIter (msgsAt n) (closedAt n)
        (runLoop msgsAt closedAt n)).retryDelay ≤ maxRetryDelay
      unfold loopIter
      rcases hstop : (runLoop msgsAt closedAt n).stopped with _ | _
      · simp only [hstop, Bool.false_eq_true, if_false]
        rcases hrecv : tryRecvIsOk (tryRecv (msgsAt n) (closedAt n)) with _ | _
        · simp only [hrecv, Bool.false_eq_true, if_false]
          exact Nat.min_le_right _ _
        · simpa [hrecv] using ih
      · simpa [hstop] using ih
  · intro msgsAt closedAt n
    induction n with
    | zero =>
      intro _
      rfl
    | succ n ih =>
      intro hrun
      have hprev : (runLoop msgsAt closedAt n).stopped = false := by
        by_contra hcon
        have hprev' : (runLoop msgsAt closedAt n).stopped = true := by
          rcases hval : (runLoop msgsAt closedAt n).stopped with _ | _
          · exact absurd hval hcon
          · rfl
        have : runLoop msgsAt closedAt (n + 1) = runLoop msgsAt closedAt n :=
          loopIter_stopped _ _ _ hprev'
        rw [this, hprev'] at hrun
        cases hrun
      have hdelay := ih hprev
      show (loopIter (msgsAt n) (closedAt n)
        (runLoop msgsAt closedAt n)).retryDelay = _
      unfold loopIter
      simp only [hprev, Bool.false_eq_true, if_false]
      rcases hrecv : tryRecvIsOk (tryRecv (msgsAt n) (closedAt n)) with _ | _
      · simp only [hrecv, Bool.false_eq_true, if_false]
        rw [retryDelaySeq, ← hdelay]
      · exfalso
        have : (runLoop msgsAt closedAt (n + 1)).stopped = true := by
          show (loopIter (msgsAt n) (closedAt n)
            (runLoop msgsAt closedAt n)).stopped = true
          unfold loopIter
          simp [hprev, hrecv]
        rw [this] at hrun
        cases hrun

/-- Witness for C6 at the source's constants `d0 = 1`, `dmax = 30`:
after seven attempts the slept delay is `min (1 * 2 ^ 6) 30 = 30`. -/
theorem c6_backoff_delay_witness :
    1 ≤ 30 ∧ retryDelaySeq 1 30 6 = min (1 * 2 ^ 6) 30 :=
  ⟨by decide, (c6_backoff_delay 1 30 (by decide)).1 6⟩

/-- C9: if the preferred port is free, `find_available_port` returns
it; if the preferred port is occupied but the next port up exists in
the `u16` range and is free, the `+1` candidate is tried before `-1`
and before any fallback, so `find_available_port` returns it. -/
theorem c9_preferred_then_plus_one (avail : Nat → Bool)
    (osPort : Option Nat) (preferred : Nat) :
    (avail preferred = true →
      find_available_port avail osPort preferred = preferred) ∧
    (preferred + 1 ≤ u16Max → avail preferred = false →
      avail (preferred + 1) = true →
      find_available_port avail osPort preferred = preferred + 1) := by
  constructor
  · intro h
    simp [find_available_port, h]
  · intro hle hfree htrue
    have hup : satAdd preferred 1 = preferred + 1 := by
      unfold satAdd u16Max at *
      omega
    have hnext : tryNearby avail preferred nearbyOffsets =
        some (preferred + 1) := by
      show tryNearby avail preferred (1 :: [2, 3, 4, 5, 6, 7, 8, 9, 10]) = _
      unfold tryNearby
      simp [hup, htrue]
    simp [find_available_port, hfree, hnext]

/-- Witness for C9: with exactly port 9200 free the probe returns
9200; with 9200 occupied and exactly 9201 free it returns 9201. -/
theorem c9_preferred_then_plus_one_witness :
    find_available_port (fun q => q == 9200) none 9200 = 9200 ∧
    find_available_port (fun q => q == 9201) none 9200 = 9201 :=
  ⟨(c9_preferred_then_plus_one (fun q => q == 9200) none 9200).1 (by decide),
    (c9_preferred_then_plus_one (fun q => q == 9201) none 9200).2
      (by decide) (by decide) (by decide)⟩

/-- When every port within distance 10 of a (valid) preferred port is
occupied, the nearby search finds nothing, for any sub-list of the
offsets `1..=10`. -/
theorem tryNearby_eq_none (avail : Nat → Bool) (preferred : Nat)
    (hp : preferred ≤ u16Max)
    (hnear : ∀ p, preferred - 10 ≤ p → p ≤ satAdd preferred 10 →
      avail p = false) :
    ∀ offs : List Nat, (∀ off ∈ offs, off ≤ 10) →
      tryNearby avail preferred offs = none := by
  intro offs
  induction offs with
  | nil => intro _; rfl
  | cons off rest ih =>
    intro h
    have hoff : off ≤ 10 := h off (List.mem_cons_self off rest)
    have hub : avail (satAdd preferred off) = false := by
      refine hnear _ ?_ ?_ <;> unfold satAdd u16Max at * <;> omega
    have hdb : avail (preferred - off) = false := by
      refine hnear _ ?_ ?_ <;> unfold satAdd u16Max at * <;> omega
    have hrest := ih fun o ho => h o (List.mem_cons_of_mem off ho)
    simp [tryNearby, hub, hdb, hrest]

/-- The secondary scan returns the first free port of its range:
if `p` is free, lies in the scanned window, and every earlier port of
the window is occupied, the scan returns `p`. -/
theorem scanFirst_eq_some (avail : Nat → Bool) :
    ∀ count start p, start ≤ p → p < start + count → avail p = true →
      (∀ q, start ≤ q → q < p → avail q = false) →
      scanFirst avail start count = some p := by
  intro count
  induction count with
  | zero =>
    intro start p h1 h2
    omega
  | succ count ih =>
    intro start p h1 h2 h3 h4
    rcases Nat.eq_or_lt_of_le h1 with heq | hlt
    · subst heq
      simp [scanFirst, h3]
    · have hstart : avail start = false := h4 start (Nat.le_refl _) hlt
      have := ih (start + 1) p hlt (by omega) h3
        (fun q hq1 hq2 => h4 q (by omega) hq2)
      simp [scanFirst, hstart, this]

/-- The secondary scan returns nothing when every port of its range is
occupied. -/
theorem scanFirst_eq_none (avail : Nat → Bool) :
    ∀ count start, (∀ p, start ≤ p → p < start + count → avail p = false) →
      scanFirst avail start count = none := by
  intro count
  induction count with
  | zero => intro start _; rfl
  | succ count ih =>
    intro start h
    have hstart : avail start = false := h start (Nat.le_refl _) (by omega)
    have := ih (start + 1) (fun p h1 h2 => h p (by omega) (by omega))
    simp [scanFirst, hstart, this]

/-- C4 counterexample: with only port 20000 free (inside the claimed
20100-port window starting at 19200, outside the code's 100-port
window) and the OS assigning 40000, `find_available_port` skips 20000
and returns the OS-assigned port: the secondary scan is 100 ports
(`19200..19300`), not 20100. -/
theorem c4_counterexample_range_width :
    (19200 ≤ 20000 ∧ 20000 < 19200 + 20100) ∧
    (fun p => p == 20000) 20000 = true ∧
    find_available_port (fun p => p == 20000) (some 40000) 9200 = 40000 := by
  decide

/-- C4 (amended): when the preferred port (a valid `u16`) and every
port within distance 10 of it are occupied, `find_available_port`
scans the fixed secondary range of 100 contiguous ports starting at
19200 (`19200..19300`) and returns the first free port there; if that
whole range is occupied too it falls back to the OS-assigned ephemeral
port, and failing that returns the preferred port unchanged. -/
theorem c4_secondary_range (avail : Nat → Bool) (osPort : Option Nat)
    (preferred : Nat) (hp : preferred ≤ u16Max)
    (hpref : avail preferred = false)
    (hnear : ∀ p, preferred - 10 ≤ p → p ≤ satAdd preferred 10 →
      avail p = false) :
    (∀ p, scanStart ≤ p → p < scanStart + scanLen → avail p = true →
      (∀ q, scanStart ≤ q → q < p → avail q = false) →
      find_available_port avail osPort preferred = p) ∧
    ((∀ p, scanStart ≤ p → p < scanStart + scanLen → avail p = false) →
      find_available_port avail osPort preferred = osPort.getD preferred) := by
  have hnone : tryNearby avail preferred nearbyOffsets = none :=
    tryNearby_eq_none avail preferred hp hnear nearbyOffsets (by decide)
  constructor
  · intro p h1 h2 h3 h4
    have hscan : scanFirst avail scanStart scanLen = some p :=
      scanFirst_eq_some avail scanLen scanStart p h1 h2 h3 h4
    simp [find_available_port, hpref, hnone, hscan]
  · intro hbusy
    have hscan : scanFirst avail scanStart scanLen = none :=
      scanFirst_eq_none avail scanLen scanStart hbusy
    rcases osPort with _ | q
    · simp [find_available_port, hpref, hnone, hscan]
    · simp [find_available_port, hpref, hnone, hscan]

/-- Witness for the amended C4: preferred port 9200 with every port up
to 19249 occupied and 19250 the first free port; the probe returns
19250, the first free port of the code's secondary range. -/
theorem c4_secondary_range_witness :
    find_available_port (fun p => decide (19250 <= p)) (some 40000) 9200 =
      19250 :=
  (c4_secondary_range (fun p => decide (19250 <= p)) (some 40000) 9200
      (by decide) (by decide)
      (by
        intro p _ h2
        unfold satAdd u16Max at h2
        simp only [decide_eq_false_iff_not]
        omega)).1
    19250 (by decide) (by decide) (by decide)
    (by
      intro q _ h2
      simp only [decide_eq_false_iff_not]
      omega)

/-- When no offset saturates the `u16` range, the source's nearby
search and the spec's skipping formulation step identically. -/
theorem tryNearby_eq_spec_of_small (avail : Nat → Bool) (p : Nat) :
    ∀ offs : List Nat, (∀ off ∈ offs, 1 ≤ off ∧ p + off ≤ u16Max) →
      tryNearby avail p offs = tryNearbySpec avail p offs := by
  intro offs
  induction offs with
  | nil => intro _; rfl
  | cons off rest ih =>
    intro h
    obtain ⟨h1off, h2off⟩ := h off (List.mem_cons_self off rest)
    have h1 : satAdd p off = p + off := by
      unfold satAdd u16Max at *
      omega
    have hne : ((p + off : Nat) != p) = true := by
      simp only [bne, Bool.not_eq_true', beq_eq_false_iff_ne, ne_eq]
      omega
    have hle : (decide (p + off ≤ u16Max)) = true := decide_eq_true h2off
    have hrest := ih fun o ho => h o (List.mem_cons_of_mem off ho)
    simp [tryNearby, tryNearbySpec, h1, hne, hle, hrest]

/-- When the preferred port is the `u16` maximum, or the `u16` maximum
is occupied, saturated probes never succeed and the source's nearby
search again agrees with the spec's skipping formulation. -/
theorem tryNearby_eq_spec_of_top (avail : Nat → Bool) (p : Nat)
    (hp : p ≤ u16Max) (hM : p = u16Max ∨ avail u16Max = false) :
    ∀ offs : List Nat, (∀ off ∈ offs, 1 ≤ off) →
      tryNearby avail p offs = tryNearbySpec avail p offs := by
  intro offs
  induction offs with
  | nil => intro _; rfl
  | cons off rest ih =>
    intro h
    have h1off : 1 ≤ off := h off (List.mem_cons_self off rest)
    have hrest := ih fun o ho => h o (List.mem_cons_of_mem off ho)
    rcases le_or_lt (p + off) u16Max with hcase | hcase
    · have h1 : satAdd p off = p + off := by
        unfold satAdd at *
        omega
      have hne : ((p + off : Nat) != p) = true := by
        simp only [bne, Bool.not_eq_true', beq_eq_false_iff_ne, ne_eq]
        omega
      have hle : (decide (p + off ≤ u16Max)) = true := decide_eq_true hcase
      simp [tryNearby, tryNearbySpec, h1, hne, hle, hrest]
    · have hsat : satAdd p off = u16Max := by
        unfold satAdd
        omega
      have hcode : ((satAdd p off != p) && avail (satAdd p off)) = false := by
        rw [hsat]
        rcases hM with rfl | hfalse
        · simp
        · simp [hfalse]
      have hspec : (decide (p + off ≤ u16Max)) = false :=
        decide_eq_false (by omega)
      simp [tryNearby, tryNearbySpec, hcode, hspec, hrest]

/-- C5: over the offsets `1..=10`, the source's nearby search behaves
exactly as the spec describes — an upward candidate beyond the `u16`
range is skipped (its saturated re-probe never changes the result), a
downward candidate below 0 is skipped, and otherwise `+offset` is
checked before `-offset` with the first free candidate returned: for
every oracle and every valid preferred port the search equals the
spec's skipping formulation `tryNearbySpec`. -/
theorem c5_nearby_matches_spec (avail : Nat → Bool) (preferred : Nat)
    (hp : preferred ≤ u16Max) :
    tryNearby avail preferred nearbyOffsets =
      tryNearbySpec avail preferred nearbyOffsets := by
  rcases le_or_lt (preferred + 10) u16Max with hsmall | hbig
  · refine tryNearby_eq_spec_of_small avail preferred nearbyOffsets ?_
    intro off hoff
    unfold u16Max at *
    unfold nearbyOffsets at hoff
    fin_cases hoff <;> omega
  · by_cases hM : avail u16Max = true
    · rcases Nat.eq_or_lt_of_le hp with heq | hlt
      · exact tryNearby_eq_spec_of_top avail preferred hp (Or.inl heq)
          nearbyOffsets (by decide)
      · have h1 : 65525 < preferred := by
          unfold u16Max at *
          omega
        have h2 : preferred < 65535 := by
          unfold u16Max at *
          omega
        unfold u16Max at hM
        interval_cases preferred <;>
          simp [tryNearby, tryNearbySpec, satAdd, u16Max, nearbyOffsets,
            Nat.min_def, hM]
    · exact tryNearby_eq_spec_of_top avail preferred hp
        (Or.inr (by simpa using hM)) nearbyOffsets (by decide)

/-- Witness for C5 in the saturation zone: preferred port 65530 with
65533 free — the source search and the spec formulation agree. -/
theorem c5_nearby_matches_spec_witness :
    tryNearby (fun q => q == 65533) 65530 nearbyOffsets =
      tryNearbySpec (fun q => q == 65533) 65530 nearbyOffsets :=
  c5_nearby_matches_spec (fun q => q == 65533) 65530 (by decide)

end K8sPortForward
